import Mathlib

/-!
Verification of the RFM segmentation pipeline in `rfm_package/rfm/main.py`.

The pipeline is embedded shallowly: a pandas DataFrame becomes a list of
rows whose later-stage columns are `Option`-valued (a column assignment
`data[col] = ...` turns `none` into `some`), dates become day numbers
(`Int`), money stays integral (`revenue : int64` per the source docstring),
and the pandas quantile machinery used by `pd.qcut` is reproduced exactly,
with quartile edges carried as four times their value so that all
arithmetic stays in `Int`.
-/

/-- A pandas cell value, as needed by the raw transaction table: integers
(the revenue column is int64 per the source docstring), strings, and
datetimes (as day numbers). -/
inductive Cell where
  | int (n : Int)
  | str (s : String)
  | date (d : Int)
deriving DecidableEq, Repr

/-- Error kinds.  The code in `main.py` only ever produces Python/pandas
errors: `keyError` (missing column), `typeError` (unsupported comparison or
subtraction on a non-datetime date column), `attributeError` (`.days` read
off an int64 difference), and `valueError` (`pd.qcut` with non-unique bin
edges).  The kinds `invalidInputError` and `insufficientDataError` named by
the specification are included as constructors so that statements about
them can be made; no function of the code constructs them. -/
inductive PdError where
  | keyError (col : String)
  | typeError
  | attributeError
  | valueError
  | invalidInputError
  | insufficientDataError
deriving DecidableEq, Repr

/-- One row of the pipeline's working DataFrame.  `create_rfm_columns`
produces the four metric fields; the later columns `R`, `F`, `M`,
`RFM_Score`, `RFM_Segment`, `Segment_Name` start absent (`none`) and are
filled in by in-place column assignments of the later stages. -/
structure DRow where
  cid : Cell
  recency : Int
  frequency : Nat
  monetary : Int
  R : Option String := none
  F : Option String := none
  M : Option String := none
  rfm_score : Option Int := none
  rfm_segment : Option String := none
  segment_name : Option String := none
deriving DecidableEq, Repr

/-- One raw transaction row: customer id, purchase date (day number),
revenue. -/
structure Transaction where
  cid : Cell
  date : Int
  revenue : Int
deriving DecidableEq, Repr

/-- A raw pandas DataFrame for the entry stage: named columns of cells. -/
structure RawFrame where
  columns : List (String × List Cell)
deriving DecidableEq, Repr

deriving instance DecidableEq for Except

/-- Decimal digit accumulation for pyInt. -/
def digitsToNat : List Char → Nat → Nat
  | [], acc => acc
  | c :: cs, acc => digitsToNat cs (acc * 10 + (c.toNat - 48))

/-- Python `int(s)` on a decimal numeral string, as applied by
`astype(int)` to the qcut label strings in `rfm_scores` (Python would
raise on a malformed numeral; the labels fed in are single digits). -/
def pyInt (s : String) : Int :=
  match s.data with
  | '-' :: cs => -((digitsToNat cs 0 : Nat) : Int)
  | cs => ((digitsToNat cs 0 : Nat) : Int)

/-- Strict lexicographic comparison of character lists, the order pandas
uses when sorting a string column; written structurally so that concrete
tables evaluate inside the kernel.  It agrees with the lexicographic order
on `String` (theorem strLtB_iff_lt below). -/
def charListLt : List Char → List Char → Bool
  | [], [] => false
  | [], _ :: _ => true
  | _ :: _, [] => false
  | a :: as, b :: bs => if a < b then true else if b < a then false else charListLt as bs

/-- Strict lexicographic comparison of strings. -/
def strLtB (a b : String) : Bool := charListLt a.data b.data

/-- `Series.max()` over an integer column (dates as day numbers); pandas
would give NaN on an empty column, which no claim exercises. -/
def listMaxI : List Int → Int
  | [] => 0
  | x :: xs => xs.foldl max x

/-- Variant-rank helper for ordering mixed cells. -/
def Cell.tag : Cell → Nat
  | .int _ => 0
  | .str _ => 1
  | .date _ => 2

/-- Comparison on cells: pandas `groupby(sort=True)` sorts the group keys;
within one value kind the natural order is used, across kinds the variant
rank (a mixed-kind id column would in fact fail to sort in Python, but no
claim exercises mixed ids). -/
def Cell.le : Cell → Cell → Bool
  | .int a, .int b => a ≤ b
  | .str a, .str b => !(strLtB b a)
  | .date a, .date b => a ≤ b
  | a, b => a.tag ≤ b.tag

/-- Propositional form of `Cell.le` for `List.insertionSort`. -/
def cellLe (a b : Cell) : Prop := Cell.le a b = true

instance : DecidableRel cellLe := fun a b =>
  inferInstanceAs (Decidable (Cell.le a b = true))

/-- `create_rfm_columns` (main.py lines 12 to 45): group the transactions by
customer id (pandas sorts the group keys ascending), and for each group take
`recency = (max_date - date.max()).days` with `max_date` the global maximum
date, `frequency = len(group)`, `monetary = sum(revenue)`. -/
def create_rfm_columns (data : List Transaction) : List DRow :=
  let max_date := listMaxI (data.map (·.date))
  let keys := (List.insertionSort cellLe (data.map (·.cid))).dedup
  keys.map (fun c =>
    let grp := data.filter (fun t => t.cid == c)
    { cid := c
      recency := max_date - listMaxI (grp.map (·.date))
      frequency := grp.length
      monetary := (grp.map (·.revenue)).sum })

/-- Linear-interpolation quantile of a sorted integer column, exactly as
numpy computes it for `Series.quantile` inside `pd.qcut`, scaled by 4 to
stay in exact integer arithmetic: the quantile at probability `k/4`
(`k = 0..4`) sits at position `k * (n - 1) / 4` and interpolates between
the two neighbouring order statistics, so four times its value is the
integer `4 * lo + (k * (n - 1) mod 4) * (hi - lo)`. -/
def quantile4x (s : List Int) (k : Nat) : Int :=
  let n := s.length
  let pos4 := k * (n - 1)
  let i := pos4 / 4
  let lo := s.getD i 0
  let hi := s.getD (i + 1) lo
  4 * lo + ((pos4 % 4 : Nat) : Int) * (hi - lo)

/-- Right-closed bin lookup of `pd.cut` against the three interior quartile
edges (edges carried as four times their value); the lowest bin includes
its left edge (qcut include lowest). -/
def binIdx (e1 e2 e3 v : Int) : Nat :=
  if 4 * v ≤ e1 then 0 else if 4 * v ≤ e2 then 1 else if 4 * v ≤ e3 then 2 else 3

/-- `pd.qcut(xs, 4, labels)`: compute the five quartile edges of the column,
raise `ValueError` when the edges are not pairwise distinct (pandas message
`Bin edges must be unique`), else label every value by its bin. -/
def qcut4 (xs : List Int) (labels : List String) : Except PdError (List String) :=
  let s := List.insertionSort (α := Int) (· ≤ ·) xs
  let e1 := quantile4x s 1
  let e2 := quantile4x s 2
  let e3 := quantile4x s 3
  if quantile4x s 0 < e1 ∧ e1 < e2 ∧ e2 < e3 ∧ e3 < quantile4x s 4 then
    .ok (xs.map (fun v => labels.getD (binIdx e1 e2 e3 v) ""))
  else .error .valueError

/-- Four-way zip used to attach the three label columns to the rows. -/
def zipWith4 {α β γ δ ε : Type} (f : α → β → γ → δ → ε) :
    List α → List β → List γ → List δ → List ε
  | a :: as, b :: bs, c :: cs, d :: ds => f a b c d :: zipWith4 f as bs cs ds
  | _, _, _, _ => []

/-- The three column assignments `data[R] = ...`, `data[F] = ...`,
`data[M] = ...` of `scale_rfm_columns` on one row. -/
def setRFM (r : DRow) (rl fl ml : String) : DRow :=
  { r with R := some rl, F := some fl, M := some ml }

/-- `scale_rfm_columns` (main.py lines 48 to 68) with the in-place mutation
made explicit: the result pair is (state of the caller's table object after
the call, returned object); the function assigns the three qcut label
columns in place and returns the very same table.  Recency uses the label
list 1,2,3,4 and Frequency and Monetary the reversed list 4,3,2,1. -/
def scale_rfm_columns_state (data : List DRow) :
    Except PdError (List DRow × List DRow) :=
  match qcut4 (data.map (·.recency)) ["1", "2", "3", "4"] with
  | .error e => .error e
  | .ok rlabels =>
  match qcut4 (data.map (fun r => (r.frequency : Int))) ["4", "3", "2", "1"] with
  | .error e => .error e
  | .ok flabels =>
  match qcut4 (data.map (fun r => r.monetary)) ["4", "3", "2", "1"] with
  | .error e => .error e
  | .ok mlabels =>
    let d := zipWith4 setRFM data rlabels flabels mlabels
    .ok (d, d)

/-- The value `scale_rfm_columns` returns to its caller. -/
def scale_rfm_columns (data : List DRow) : Except PdError (List DRow) :=
  (scale_rfm_columns_state data).map (·.2)

/-- The two column assignments of `rfm_scores` on one row:
`RFM_Score = int(R) + int(F) + int(M)` and `RFM_Segment = str(R) + str(F) + str(M)`. -/
def withScores (r : DRow) : DRow :=
  { r with
    rfm_score := some (pyInt (r.R.getD "") + pyInt (r.F.getD "") + pyInt (r.M.getD ""))
    rfm_segment := some ((r.R.getD "") ++ (r.F.getD "") ++ (r.M.getD "")) }

/-- The sort key of `sort_values(RFM_Segment)`. -/
def segKey (r : DRow) : String := r.rfm_segment.getD ""

/-- Row order of `sort_values(RFM_Segment, ascending=False)`: a row may
precede another when its key is not lexicographically below the other's,
i.e. the later key is at most the earlier key in `String` order (theorem
strLtB_false_iff_le below). -/
def segDesc (a b : DRow) : Prop := strLtB (segKey a) (segKey b) = false

instance : DecidableRel segDesc := fun a b =>
  inferInstanceAs (Decidable (strLtB (segKey a) (segKey b) = false))

/-- `rfm_scores` (main.py lines 94 to 116) with the mutation explicit: the
two score columns are assigned on the caller's table in place (first pair
component); `sort_values` then produces a new, descending-sorted table which
is what the function returns (second component).  `sort_values` runs with
numpy's default quicksort, whose order within blocks of equal keys is
unspecified; the embedding fixes a deterministic stable sort, and the
properties proved below depend only on the sorted order, the membership of
rows, or tie-order-invariant projections, never on the order inside a tie
block. -/
def rfm_scores_state (data : List DRow) : List DRow × List DRow :=
  let d := data.map withScores
  (d, List.insertionSort segDesc d)

/-- The value `rfm_scores` returns to its caller. -/
def rfm_scores (data : List DRow) : List DRow := (rfm_scores_state data).2

/-- `top_customers` (main.py lines 119 to 135): sort by `RFM_Segment`
descending and return the new table (no mutation: `sort_values` without
`inplace` only rebinds the local name).  The same stable-sort idealization
as in rfm_scores_state applies: the real `sort_values` uses an unstable
quicksort whose tie order is unspecified. -/
def top_customers (data : List DRow) : List DRow :=
  List.insertionSort segDesc data

/-- `naming` (main.py lines 138 to 165): the threshold chain over the row's
`RFM_Score` (a row without that column would raise a KeyError in Python;
the embedding reads it with default 0, which no claim exercises). -/
def naming (df : DRow) : String :=
  let s := df.rfm_score.getD 0
  if s ≥ 9 then "Can't Loose Them"
  else if s ≥ 8 ∧ s < 9 then "Champions"
  else if s ≥ 7 ∧ s < 8 then "Loyal/Commited"
  else if s ≥ 6 ∧ s < 7 then "Potential"
  else if s ≥ 5 ∧ s < 6 then "Promising"
  else if s ≥ 4 ∧ s < 5 then "Requires Attention"
  else "Demands Activation"

/-- `give_names_to_segments` (main.py lines 167 to 184) with the mutation
explicit: `data.apply(naming, axis=1)` is assigned to the `Segment_Name`
column of the caller's table in place, and that same table is returned. -/
def give_names_to_segments_state (data : List DRow) : List DRow × List DRow :=
  let d := data.map (fun r => { r with segment_name := some (naming r) })
  (d, d)

/-- The value `give_names_to_segments` returns to its caller. -/
def give_names_to_segments (data : List DRow) : List DRow :=
  (give_names_to_segments_state data).2

/-- Interpretation of a datetime cell.  A date column holding non-datetime
values makes the per-group arithmetic `(max_date - date.max()).days` fail,
with the error kind depending on the cell kind (see dateArithError). -/
def asDate : Cell → Option Int
  | .date d => some d
  | _ => none

/-- Integer-cell test, for the date-arithmetic error kind. -/
def Cell.isInt : Cell → Bool
  | .int _ => true
  | _ => false

/-- `data[dates].max()` (main.py line 38): `Series.max` succeeds on a
column of a single value kind (datetimes, int64, or strings) and raises
TypeError on an object column that mixes kinds, because the underlying
comparisons are unsupported. -/
def seriesMaxError (col : List Cell) : Option PdError :=
  if (col.map Cell.tag).dedup.length ≤ 1 then none else some .typeError

/-- The error of `(max_date - date.max()).days` on a single-kind column
that does not hold datetimes: int64 subtraction succeeds but an int64 has
no `.days` attribute, so Python raises AttributeError; string subtraction
is unsupported and raises TypeError. -/
def dateArithError (col : List Cell) : PdError :=
  if col.all Cell.isInt then .attributeError else .typeError

/-- Numeric reading of a revenue cell (Python `sum` over a string column
would concatenate rather than fail; no claim exercises string revenue). -/
def cellNum : Cell → Int
  | .int n => n
  | .date d => d
  | .str _ => 0

/-- Three-way zip used to rebuild the transaction rows from raw columns. -/
def zipWith3 {α β γ δ : Type} (f : α → β → γ → δ) :
    List α → List β → List γ → List δ
  | a :: as, b :: bs, c :: cs => f a b c :: zipWith3 f as bs cs
  | _, _, _ => []

/-- `create_rfm_columns` re-read with pandas' dynamic failures explicit,
following the evaluation order of the source: `data[dates].max()` (line 38)
raises KeyError for a missing date column and TypeError for a mixed-kind
one; `groupby(id)` then raises KeyError for a missing id column, the `agg`
dict KeyError for a missing revenue column; finally the per-group
arithmetic `(max_date - date.max()).days` fails on a single-kind
non-datetime column with AttributeError (int64 values) or TypeError
(strings).  On success it computes exactly `create_rfm_columns`. -/
def create_rfm_columns_checked (data : RawFrame) (id dates revenue : String) :
    Except PdError (List DRow) :=
  match data.columns.lookup dates with
  | none => .error (.keyError dates)
  | some dcol =>
  match seriesMaxError dcol with
  | some e => .error e
  | none =>
  match data.columns.lookup id with
  | none => .error (.keyError id)
  | some icol =>
  match data.columns.lookup revenue with
  | none => .error (.keyError revenue)
  | some rcol =>
  match dcol.mapM asDate with
  | none => .error (dateArithError dcol)
  | some ds =>
    .ok (create_rfm_columns (zipWith3 Transaction.mk icol ds (rcol.map cellNum)))

/-- The metric part of a row: the columns present before `scale_rfm_columns`
runs, used to state which fields the later stages never touch. -/
def metricPart (r : DRow) : Cell × Int × Nat × Int :=
  (r.cid, r.recency, r.frequency, r.monetary)

/-- Example metric table with four evenly spread rows: recencies ascending
0, 10, 20, 30, frequencies 1..4, monetary 10..40.  All three qcut columns
succeed on it. -/
def exMetric : List DRow :=
  [ { cid := .int 1, recency := 0,  frequency := 1, monetary := 10 },
    { cid := .int 2, recency := 10, frequency := 2, monetary := 20 },
    { cid := .int 3, recency := 20, frequency := 3, monetary := 30 },
    { cid := .int 4, recency := 30, frequency := 4, monetary := 40 } ]

/-- The encoded table `scale_rfm_columns` produces from `exMetric`. -/
def exScaled : List DRow :=
  [ { cid := .int 1, recency := 0,  frequency := 1, monetary := 10,
      R := some "1", F := some "4", M := some "4" },
    { cid := .int 2, recency := 10, frequency := 2, monetary := 20,
      R := some "2", F := some "3", M := some "3" },
    { cid := .int 3, recency := 20, frequency := 3, monetary := 30,
      R := some "3", F := some "2", M := some "2" },
    { cid := .int 4, recency := 30, frequency := 4, monetary := 40,
      R := some "4", F := some "1", M := some "1" } ]

/-- The spec's worked transaction example: C1 buys on day 0 (2023-01-01)
and day 31 (2023-02-01), C2 buys on day 40 (2023-02-10). -/
def exTx : List Transaction :=
  [ { cid := .str "C1", date := 0,  revenue := 100 },
    { cid := .str "C1", date := 31, revenue := 50 },
    { cid := .str "C2", date := 40, revenue := 500 } ]

/-- The first row of `create_rfm_columns exTx`. -/
def exC1row : DRow :=
  { cid := .str "C1", recency := 9, frequency := 2, monetary := 150 }

/-- A metric table whose Recency column has only three distinct values
0, 0, 1, 1, 2, 2 while the other two columns spread out; the quartile
edges of every column are still pairwise distinct. -/
def exFewDistinct : List DRow :=
  [ { cid := .int 1, recency := 0, frequency := 1, monetary := 10 },
    { cid := .int 2, recency := 0, frequency := 2, monetary := 20 },
    { cid := .int 3, recency := 1, frequency := 3, monetary := 30 },
    { cid := .int 4, recency := 1, frequency := 4, monetary := 40 },
    { cid := .int 5, recency := 2, frequency := 5, monetary := 50 },
    { cid := .int 6, recency := 2, frequency := 6, monetary := 60 } ]

/-- A one-row metric table: every quantile of a one-element column is that
element, so its qcut fails. -/
def exSingle : List DRow :=
  [ { cid := .int 1, recency := 5, frequency := 1, monetary := 10 } ]

/-- A raw frame with id and revenue columns but no date column. -/
def exRaw : RawFrame :=
  { columns := [("id", [.str "C1"]), ("revenue", [.int 100])] }

/-- A one-row table carrying an RFM score of 8, as left by the scoring
stage. -/
def exScore8 : List DRow :=
  [ { cid := .int 1, recency := 0, frequency := 1, monetary := 10,
      R := some "4", F := some "2", M := some "2",
      rfm_score := some 8, rfm_segment := some "422" } ]

/-- The row of `exScore8` after `give_names_to_segments`. -/
def exScore8Named : DRow :=
  { cid := .int 1, recency := 0, frequency := 1, monetary := 10,
    R := some "4", F := some "2", M := some "2",
    rfm_score := some 8, rfm_segment := some "422",
    segment_name := some "Champions" }

/-- The first row of `rfm_scores exScaled`: the encoded row with segment
code 411 sorts to the front. -/
def exTopScored : DRow :=
  { cid := .int 4, recency := 30, frequency := 4, monetary := 40,
    R := some "4", F := some "1", M := some "1",
    rfm_score := some 6, rfm_segment := some "411" }

/-! Bridging lemmas: the structural string comparison of the embedding
agrees with the lexicographic order on `String`. -/

/-- charListLt decides the lexicographic extension of the character order. -/
theorem charListLt_iff_lex : ∀ as bs : List Char,
    charListLt as bs = true ↔ List.Lex (· < ·) as bs := by
  intro as
  induction as with
  | nil =>
    intro bs
    cases bs with
    | nil =>
      simp only [charListLt, Bool.false_eq_true, false_iff]
      intro h; cases h
    | cons b bs =>
      simp only [charListLt, true_iff]
      exact List.Lex.nil
  | cons a as ih =>
    intro bs
    cases bs with
    | nil =>
      simp only [charListLt, Bool.false_eq_true, false_iff]
      intro h; cases h
    | cons b bs =>
      simp only [charListLt]
      split_ifs with h1 h2
      · simp only [true_iff]; exact List.Lex.rel h1
      · simp only [Bool.false_eq_true, false_iff]
        intro h
        cases h with
        | cons h => exact lt_irrefl _ h2
        | rel h => exact absurd h h1
      · have hab : a = b := le_antisymm (not_lt.mp h2) (not_lt.mp h1)
        subst hab
        rw [ih bs]
        constructor
        · exact fun h => List.Lex.cons h
        · intro h
          cases h with
          | cons h => exact h
          | rel h => exact absurd h h1

/-- strLtB decides the strict lexicographic order on `String`. -/
theorem strLtB_iff_lt (a b : String) : strLtB a b = true ↔ a < b := by
  rw [String.lt_iff_toList_lt]
  exact charListLt_iff_lex a.data b.data

/-- strLtB refutations decide the lexicographic order on `String`. -/
theorem strLtB_false_iff_le (a b : String) : strLtB b a = false ↔ a ≤ b := by
  rw [← not_lt, ← strLtB_iff_lt]
  cases h : strLtB b a <;> simp

instance : IsTotal DRow segDesc :=
  ⟨fun a b => (le_total (segKey b) (segKey a)).imp
    (fun h => (strLtB_false_iff_le _ _).mpr h)
    (fun h => (strLtB_false_iff_le _ _).mpr h)⟩

instance : IsTrans DRow segDesc :=
  ⟨fun _ _ _ hab hbc => (strLtB_false_iff_le _ _).mpr
    (le_trans ((strLtB_false_iff_le _ _).mp hbc) ((strLtB_false_iff_le _ _).mp hab))⟩

/-! Helper lemmas about the embedding's primitives. -/

/-- Folding max never goes below the seed. -/
theorem le_foldl_max (l : List Int) (a : Int) : a ≤ l.foldl max a := by
  induction l generalizing a with
  | nil => exact le_refl a
  | cons x xs ih => exact le_trans (le_max_left a x) (ih (max a x))

/-- Folding max dominates every element. -/
theorem mem_le_foldl_max (l : List Int) (x : Int) (hx : x ∈ l) :
    ∀ a : Int, x ≤ l.foldl max a := by
  induction l with
  | nil => cases hx
  | cons y ys ih =>
    intro a
    rcases List.mem_cons.mp hx with rfl | h
    · exact le_trans (le_max_right a x) (le_foldl_max ys (max a x))
    · exact ih h (max a y)

/-- Folding max yields the seed or an element. -/
theorem foldl_max_mem (l : List Int) (a : Int) :
    l.foldl max a = a ∨ l.foldl max a ∈ l := by
  induction l generalizing a with
  | nil => exact Or.inl rfl
  | cons x xs ih =>
    rcases ih (max a x) with h | h
    · rcases max_choice a x with hm | hm
      · exact Or.inl (by rw [List.foldl_cons, h, hm])
      · exact Or.inr (by rw [List.foldl_cons, h, hm]; exact List.mem_cons_self x xs)
    · exact Or.inr (List.mem_cons_of_mem x h)

/-- listMaxI dominates every element of the column. -/
theorem listMaxI_ge (l : List Int) (x : Int) (hx : x ∈ l) : x ≤ listMaxI l := by
  cases l with
  | nil => cases hx
  | cons y ys =>
    rcases List.mem_cons.mp hx with rfl | h
    · exact le_foldl_max ys x
    · exact mem_le_foldl_max ys x h y

/-- listMaxI of a nonempty column is attained by an element. -/
theorem listMaxI_mem (l : List Int) (h : l ≠ []) : listMaxI l ∈ l := by
  cases l with
  | nil => exact absurd rfl h
  | cons y ys =>
    rcases foldl_max_mem ys y with h1 | h1
    · rw [listMaxI, h1]; exact List.mem_cons_self y ys
    · exact List.mem_cons_of_mem y h1

/-- Membership in a four-way zip comes from members of the four lists. -/
theorem zipWith4_mem {α β γ δ ε : Type} (f : α → β → γ → δ → ε)
    (as : List α) (bs : List β) (cs : List γ) (ds : List δ) (x : ε)
    (hx : x ∈ zipWith4 f as bs cs ds) :
    ∃ a b c d, a ∈ as ∧ b ∈ bs ∧ c ∈ cs ∧ d ∈ ds ∧ x = f a b c d := by
  induction as generalizing bs cs ds with
  | nil => cases hx
  | cons a as ih =>
    cases bs with
    | nil => cases hx
    | cons b bs =>
    cases cs with
    | nil => cases hx
    | cons c cs =>
    cases ds with
    | nil => cases hx
    | cons d ds =>
    rcases List.mem_cons.mp hx with rfl | h
    · exact ⟨a, b, c, d, List.mem_cons_self _ _, List.mem_cons_self _ _,
        List.mem_cons_self _ _, List.mem_cons_self _ _, rfl⟩
    · obtain ⟨a1, b1, c1, d1, ha, hb, hc, hd, hx1⟩ := ih bs cs ds h
      exact ⟨a1, b1, c1, d1, List.mem_cons_of_mem _ ha, List.mem_cons_of_mem _ hb,
        List.mem_cons_of_mem _ hc, List.mem_cons_of_mem _ hd, hx1⟩

/-- Attaching label columns leaves the metric part of every row unchanged. -/
theorem zipWith4_setRFM_metricPart (data : List DRow) (rs fs ms : List String)
    (hr : rs.length = data.length) (hf : fs.length = data.length)
    (hm : ms.length = data.length) :
    (zipWith4 setRFM data rs fs ms).map metricPart = data.map metricPart := by
  induction data generalizing rs fs ms with
  | nil =>
    cases rs with
    | nil => rfl
    | cons rl rs => simp at hr
  | cons r data ih =>
    cases rs with
    | nil => simp at hr
    | cons rl rs =>
    cases fs with
    | nil => simp at hf
    | cons fl fs =>
    cases ms with
    | nil => simp at hm
    | cons ml ms =>
    simp only [zipWith4, List.map_cons]
    rw [ih rs fs ms (by simpa using hr) (by simpa using hf) (by simpa using hm)]
    rfl

/-- qcut4 only ever fails with the pandas ValueError. -/
theorem qcut4_error (xs : List Int) (labels : List String) (e : PdError)
    (h : qcut4 xs labels = .error e) : e = .valueError := by
  simp only [qcut4] at h
  split_ifs at h with hc
  exact (Except.error.inj h).symm

/-- qcut4 labels every value of the column. -/
theorem qcut4_ok_length (xs : List Int) (labels : List String) (ys : List String)
    (h : qcut4 xs labels = .ok ys) : ys.length = xs.length := by
  simp only [qcut4] at h
  split_ifs at h with hc
  rw [← Except.ok.inj h]
  exact List.length_map xs _

/-- Bin lookup lands in one of the four bins. -/
theorem binIdx_lt_four (e1 e2 e3 v : Int) : binIdx e1 e2 e3 v < 4 := by
  unfold binIdx
  split_ifs <;> omega

/-- Every label qcut4 emits is drawn from the given label list. -/
theorem qcut4_ok_mem (xs : List Int) (labels : List String) (hlen : labels.length = 4)
    (ys : List String) (h : qcut4 xs labels = .ok ys) (y : String) (hy : y ∈ ys) :
    y ∈ labels := by
  simp only [qcut4] at h
  split_ifs at h with hc
  rw [← Except.ok.inj h] at hy
  obtain ⟨v, hv, rfl⟩ := List.mem_map.mp hy
  rw [List.getD_eq_getElem labels "" (by rw [hlen]; exact binIdx_lt_four _ _ _ v)]
  exact List.getElem_mem _

/-- Inversion of a successful scale_rfm_columns_state run: the two pair
components are the same object, and the table is the three qcut label
columns zipped onto the input rows. -/
theorem scale_state_ok (t : List DRow) (p : List DRow × List DRow)
    (h : scale_rfm_columns_state t = .ok p) :
    p.1 = p.2 ∧ ∃ rs fs ms,
      qcut4 (t.map (·.recency)) ["1", "2", "3", "4"] = .ok rs ∧
      qcut4 (t.map (fun r => (r.frequency : Int))) ["4", "3", "2", "1"] = .ok fs ∧
      qcut4 (t.map (·.monetary)) ["4", "3", "2", "1"] = .ok ms ∧
      p.2 = zipWith4 setRFM t rs fs ms := by
  unfold scale_rfm_columns_state at h
  split at h
  · cases h
  split at h
  · cases h
  split at h
  · cases h
  rw [← Except.ok.inj h]
  exact ⟨rfl, _, _, _, by assumption, by assumption, by assumption, rfl⟩

/-- A successful scale_rfm_columns run determines the whole state pair:
the caller's table object and the returned table are the same object. -/
theorem scale_ok_state (t t' : List DRow) (h : scale_rfm_columns t = .ok t') :
    scale_rfm_columns_state t = .ok (t', t') := by
  unfold scale_rfm_columns at h
  cases hs : scale_rfm_columns_state t with
  | error e => rw [hs] at h; cases h
  | ok p =>
    obtain ⟨p1, p2⟩ := p
    rw [hs] at h
    have h2 : p2 = t' := by simpa [Except.map] using h
    have h1 : p1 = p2 := (scale_state_ok t (p1, p2) hs).1
    rw [h1, h2]

/-- A failed scale_rfm_columns run fails with the pandas ValueError. -/
theorem scale_error_value (t : List DRow) (e : PdError)
    (h : scale_rfm_columns t = .error e) : e = .valueError := by
  unfold scale_rfm_columns at h
  cases hs : scale_rfm_columns_state t with
  | ok p => rw [hs] at h; cases h
  | error e1 =>
    rw [hs] at h
    have he : e1 = e := by simpa [Except.map] using h
    subst he
    unfold scale_rfm_columns_state at hs
    split at hs
    · rename_i e2 heq
      injection hs with h12
      subst h12
      exact qcut4_error _ _ _ heq
    split at hs
    · rename_i e2 heq
      injection hs with h12
      subst h12
      exact qcut4_error _ _ _ heq
    split at hs
    · rename_i e2 heq
      injection hs with h12
      subst h12
      exact qcut4_error _ _ _ heq
    cases hs

/-- Every row of a successfully encoded table carries one of the four
Recency labels and one of the four reversed Frequency and Monetary
labels. -/
theorem scale_ok_row_labels (t t' : List DRow) (h : scale_rfm_columns t = .ok t')
    (row : DRow) (hrow : row ∈ t') :
    (∃ rl, row.R = some rl ∧ rl ∈ (["1", "2", "3", "4"] : List String)) ∧
    (∃ fl, row.F = some fl ∧ fl ∈ (["4", "3", "2", "1"] : List String)) ∧
    (∃ ml, row.M = some ml ∧ ml ∈ (["4", "3", "2", "1"] : List String)) := by
  obtain ⟨-, rs, fs, ms, hr, hf, hm, ht'⟩ :=
    scale_state_ok t (t', t') (scale_ok_state t t' h)
  simp only at ht'
  rw [ht'] at hrow
  obtain ⟨r0, rl, fl, ml, -, hrl, hfl, hml, hx⟩ :=
    zipWith4_mem setRFM t rs fs ms row hrow
  subst hx
  exact ⟨⟨rl, rfl, qcut4_ok_mem _ _ (by decide) _ hr rl hrl⟩,
         ⟨fl, rfl, qcut4_ok_mem _ _ (by decide) _ hf fl hfl⟩,
         ⟨ml, rfl, qcut4_ok_mem _ _ (by decide) _ hm ml hml⟩⟩

/-- quantile4x of a constant nonempty column is four times the constant. -/
theorem quantile4x_const (s : List Int) (c : Int) (hc : ∀ x ∈ s, x = c)
    (hne : s ≠ []) (k : Nat) (hk : k ≤ 4) : quantile4x s k = 4 * c := by
  have hn : 0 < s.length := List.length_pos.mpr hne
  have hi : k * (s.length - 1) / 4 < s.length := by
    have h1 : k * (s.length - 1) ≤ 4 * (s.length - 1) :=
      Nat.mul_le_mul_right _ hk
    have h2 : k * (s.length - 1) / 4 ≤ 4 * (s.length - 1) / 4 :=
      Nat.div_le_div_right h1
    rw [Nat.mul_div_cancel_left _ (by norm_num)] at h2
    omega
  have hlo : s.getD (k * (s.length - 1) / 4) 0 = c := by
    rw [List.getD_eq_getElem s 0 hi]
    exact hc _ (List.getElem_mem _)
  simp only [quantile4x]
  rw [hlo]
  by_cases hsucc : k * (s.length - 1) / 4 + 1 < s.length
  · rw [List.getD_eq_getElem s c hsucc, hc _ (List.getElem_mem _)]
    ring
  · rw [List.getD_eq_default s c (by omega)]
    ring

/-- qcut4 on a constant nonempty column always fails: every quantile edge
equals the constant, so the edges are not pairwise distinct. -/
theorem qcut4_const_error (xs : List Int) (c : Int) (hc : ∀ x ∈ xs, x = c)
    (hne : xs ≠ []) (labels : List String) :
    qcut4 xs labels = .error .valueError := by
  have hmem : ∀ x ∈ List.insertionSort (α := Int) (· ≤ ·) xs, x = c := fun x hx =>
    hc x ((List.mem_insertionSort _).mp hx)
  have hne2 : List.insertionSort (α := Int) (· ≤ ·) xs ≠ [] := by
    intro h0
    apply hne
    rw [← List.length_eq_zero, ← List.length_insertionSort (α := Int) (· ≤ ·) xs, h0]
    rfl
  simp only [qcut4]
  rw [quantile4x_const _ c hmem hne2 0 (by omega),
      quantile4x_const _ c hmem hne2 1 (by omega),
      quantile4x_const _ c hmem hne2 2 (by omega),
      quantile4x_const _ c hmem hne2 3 (by omega),
      quantile4x_const _ c hmem hne2 4 (by omega)]
  simp

/-- A nonempty table with a constant Recency column makes scale_rfm_columns
fail with the pandas ValueError. -/
theorem scale_const_recency_error (t : List DRow) (c : Int) (hne : t ≠ [])
    (hc : ∀ r ∈ t, r.recency = c) :
    scale_rfm_columns t = .error .valueError := by
  have h1 : qcut4 (t.map (·.recency)) ["1", "2", "3", "4"] = .error .valueError := by
    apply qcut4_const_error _ c
    · intro x hx
      obtain ⟨r, hr, rfl⟩ := List.mem_map.mp hx
      exact hc r hr
    · simpa using hne
  unfold scale_rfm_columns scale_rfm_columns_state
  rw [h1]
  rfl

/-- Facts about the four Recency labels: the parsed value is between 1 and
4 and the label is a single character. -/
theorem r_label_facts (l : String) (h : l ∈ (["1", "2", "3", "4"] : List String)) :
    1 ≤ pyInt l ∧ pyInt l ≤ 4 ∧ l.length = 1 := by
  fin_cases h <;> decide

/-- Facts about the four reversed Frequency and Monetary labels. -/
theorem fm_label_facts (l : String) (h : l ∈ (["4", "3", "2", "1"] : List String)) :
    1 ≤ pyInt l ∧ pyInt l ≤ 4 ∧ l.length = 1 := by
  fin_cases h <;> decide

/-- naming only reads the RFM_Score column of its row. -/
theorem naming_eq_of_score (r1 r2 : DRow) (h : r1.rfm_score = r2.rfm_score) :
    naming r1 = naming r2 := by
  unfold naming
  rw [h]

/-- give_names_to_segments is the per-row application of naming. -/
theorem give_names_eq (t : List DRow) :
    give_names_to_segments t =
      t.map (fun r => { r with segment_name := some (naming r) }) := rfl

/-- The seven threshold cases of naming, for a row carrying a score. -/
theorem naming_spec (r : DRow) (s : Int) (hs : r.rfm_score = some s) :
    (naming r = "Can't Loose Them" ↔ 9 ≤ s)
    ∧ (naming r = "Champions" ↔ s = 8)
    ∧ (naming r = "Loyal/Commited" ↔ s = 7)
    ∧ (naming r = "Potential" ↔ s = 6)
    ∧ (naming r = "Promising" ↔ s = 5)
    ∧ (naming r = "Requires Attention" ↔ s = 4)
    ∧ (naming r = "Demands Activation" ↔ s < 4)
    ∧ naming r ∈ (["Can't Loose Them", "Champions", "Loyal/Commited", "Potential",
        "Promising", "Requires Attention", "Demands Activation"] : List String) := by
  simp only [naming, hs, Option.getD_some]
  split_ifs with h1 h2 h3 h4 h5 h6 <;>
    refine ⟨?_, ?_, ?_, ?_, ?_, ?_, ?_, by decide⟩ <;>
    constructor <;>
    intro hh <;>
    first
      | rfl
      | omega
      | exact absurd hh (by decide)

/-- The scoring map leaves the metric part of every row unchanged. -/
theorem map_withScores_metricPart (t : List DRow) :
    (t.map withScores).map metricPart = t.map metricPart := by
  rw [List.map_map]
  rfl

/-- The naming map leaves the metric part of every row unchanged. -/
theorem map_names_metricPart (t : List DRow) :
    (give_names_to_segments t).map metricPart = t.map metricPart := by
  rw [give_names_eq, List.map_map]
  rfl

/-- Dedup of a constant list has at most one element. -/
theorem dedup_const_length {α : Type} [DecidableEq α] (l : List α) (a : α)
    (h : ∀ x ∈ l, x = a) : l.dedup.length ≤ 1 := by
  induction l with
  | nil => simp
  | cons x xs ih =>
    have hx : x = a := h x (List.mem_cons_self _ _)
    subst hx
    by_cases hmem : x ∈ xs
    · rw [List.dedup_cons_of_mem hmem]
      exact ih (fun y hy => h y (List.mem_cons_of_mem _ hy))
    · have hxs : xs = [] := by
        cases xs with
        | nil => rfl
        | cons y ys =>
          exact absurd (h y (List.mem_cons_of_mem _ (List.mem_cons_self _ _)))
            (fun hy => hmem (hy ▸ List.mem_cons_self _ _))
      subst hxs
      simp

/-- A column containing a non-datetime cell fails to read as datetimes. -/
theorem mapM_asDate_none (col : List Cell) (c : Cell) (hc : c ∈ col)
    (hnd : asDate c = none) : col.mapM asDate = none := by
  induction col with
  | nil => cases hc
  | cons x xs ih =>
    rcases List.mem_cons.mp hc with rfl | h
    · rw [List.mapM_cons, hnd]
      rfl
    · rw [List.mapM_cons]
      cases hx : asDate x
      · rfl
      · rw [ih h]
        rfl

/-- The only Series.max failure is the TypeError on mixed kinds. -/
theorem seriesMaxError_some (col : List Cell) (e : PdError)
    (h : seriesMaxError col = some e) : e = .typeError := by
  unfold seriesMaxError at h
  split_ifs at h
  exact (Option.some.inj h).symm

/-- A single-kind column never fails Series.max. -/
theorem seriesMaxError_none_of_const (col : List Cell) (k : Nat)
    (h : ∀ c ∈ col, c.tag = k) : seriesMaxError col = none := by
  unfold seriesMaxError
  rw [if_pos]
  apply dedup_const_length _ k
  intro x hx
  obtain ⟨c, hc, rfl⟩ := List.mem_map.mp hx
  exact h c hc

/-! The claims. -/

/-- C1: the segment classifier (naming, applied per row by
give_names_to_segments) is a total deterministic function of RFM_Score
alone: every output row's Segment_Name is the naming of that row; naming
returns Can't Loose Them exactly when the score is at least 9, Champions
exactly at 8, Loyal/Commited at 7, Potential at 6, Promising at 5,
Requires Attention at 4 and Demands Activation exactly below 4; it always
lands in the seven fixed labels, and any two rows with identical RFM_Score
receive identical names. -/
theorem c1_segment_classifier_total (t : List DRow) (row : DRow) (s : Int)
    (hmem : row ∈ give_names_to_segments t) (hs : row.rfm_score = some s) :
    row.segment_name = some (naming row)
    ∧ (∀ row2 : DRow, row2.rfm_score = row.rfm_score → naming row2 = naming row)
    ∧ (naming row = "Can't Loose Them" ↔ 9 ≤ s)
    ∧ (naming row = "Champions" ↔ s = 8)
    ∧ (naming row = "Loyal/Commited" ↔ s = 7)
    ∧ (naming row = "Potential" ↔ s = 6)
    ∧ (naming row = "Promising" ↔ s = 5)
    ∧ (naming row = "Requires Attention" ↔ s = 4)
    ∧ (naming row = "Demands Activation" ↔ s < 4)
    ∧ naming row ∈ (["Can't Loose Them", "Champions", "Loyal/Commited", "Potential",
        "Promising", "Requires Attention", "Demands Activation"] : List String) := by
  obtain ⟨h1, h2, h3, h4, h5, h6, h7, h8⟩ := naming_spec row s hs
  refine ⟨?_, fun row2 hr2 => naming_eq_of_score row2 row hr2,
    h1, h2, h3, h4, h5, h6, h7, h8⟩
  rw [give_names_eq] at hmem
  obtain ⟨r0, hr0, rfl⟩ := List.mem_map.mp hmem
  exact congrArg some (naming_eq_of_score r0 _ rfl).symm

/-- C1 witness: the concrete row carrying score 8 classifies as
Champions. -/
theorem c1_segment_classifier_total_witness :
    naming exScore8Named = "Champions" :=
  ((c1_segment_classifier_total exScore8 exScore8Named 8
      (by decide) (by decide)).2.2.2.1).mpr rfl

/-- C2: evaluation of the code at the failing input: on the metric table
with recencies 0, 10, 20, 30 the encoder gives the most recent customer
(recency 0) the R label 1 and the least recent customer the R label 4,
the reverse of the direction the claim (and the function's own docstring,
which promises 4 is the most recent) states. -/
theorem c2_recency_label_direction_eval :
    (scale_rfm_columns exMetric).map (fun t => t.map (fun r => (r.recency, r.R))) =
      .ok [(0, some "1"), (10, some "2"), (20, some "3"), (30, some "4")] := by
  decide

/-- C3: evaluation of the code at the failing input: on the same metric
table the customers with the highest Frequency and Monetary values receive
class 1, not class 4 — the labels 4, 3, 2, 1 are assigned to the ascending
bins, so the lowest quartile gets 4. -/
theorem c3_fm_label_direction_eval :
    (scale_rfm_columns exMetric).map
        (fun t => t.map (fun r => (r.frequency, r.F, r.monetary, r.M))) =
      .ok [(1, some "4", 10, some "4"), (2, some "3", 20, some "3"),
           (3, some "2", 30, some "2"), (4, some "1", 40, some "1")] := by
  decide

/-- C4: create_rfm_columns yields one row per distinct customer id (no id
twice, and exactly the ids present in the input), with frequency the exact
count of that id's transaction rows, monetary the sum of its revenues,
recency the global maximum date minus the customer's maximum date, hence
nonnegative; and on the spec's worked example it produces exactly
C1 with recency 9, frequency 2, monetary 150 and C2 with recency 0,
frequency 1, monetary 500. -/
theorem c4_create_rfm_columns_correct (data : List Transaction) :
    ((create_rfm_columns data).map (fun r => r.cid)).Nodup
    ∧ (∀ c : Cell, c ∈ (create_rfm_columns data).map (fun r => r.cid) ↔
        c ∈ data.map (fun t => t.cid))
    ∧ (∀ row ∈ create_rfm_columns data,
        row.frequency = (data.filter (fun t => t.cid == row.cid)).length
        ∧ row.monetary =
            ((data.filter (fun t => t.cid == row.cid)).map (fun t => t.revenue)).sum
        ∧ row.recency = listMaxI (data.map (fun t => t.date))
            - listMaxI ((data.filter (fun t => t.cid == row.cid)).map (fun t => t.date))
        ∧ 0 ≤ row.recency)
    ∧ (create_rfm_columns exTx).map (fun r => (r.cid, r.recency, r.frequency, r.monetary)) =
        [(.str "C1", 9, 2, 150), (.str "C2", 0, 1, 500)] := by
  have hmapid : (create_rfm_columns data).map (fun r => r.cid) =
      (List.insertionSort cellLe (data.map (fun t => t.cid))).dedup := by
    simp only [create_rfm_columns, List.map_map]
    exact List.map_id _
  refine ⟨?_, ?_, ?_, by decide⟩
  · rw [hmapid]
    exact List.nodup_dedup _
  · intro c
    rw [hmapid, List.mem_dedup, List.mem_insertionSort]
  · intro row hrow
    simp only [create_rfm_columns] at hrow
    obtain ⟨c, hc, rfl⟩ := List.mem_map.mp hrow
    refine ⟨rfl, rfl, rfl, ?_⟩
    have hc2 : c ∈ data.map (fun t => t.cid) :=
      (List.mem_insertionSort cellLe).mp (List.mem_dedup.mp hc)
    obtain ⟨t0, ht0, hcid0⟩ := List.mem_map.mp hc2
    have ht0f : t0 ∈ data.filter (fun t => t.cid == c) :=
      List.mem_filter.mpr ⟨ht0, beq_iff_eq.mpr hcid0⟩
    have hne : (data.filter (fun t => t.cid == c)).map (fun t => t.date) ≠ [] :=
      List.ne_nil_of_mem (List.mem_map_of_mem _ ht0f)
    have hmax := listMaxI_mem _ hne
    obtain ⟨t1, ht1, hdate⟩ := List.mem_map.mp hmax
    have hsub : listMaxI ((data.filter (fun t => t.cid == c)).map (fun t => t.date))
        ≤ listMaxI (data.map (fun t => t.date)) := by
      apply listMaxI_ge
      rw [← hdate]
      exact List.mem_map_of_mem _ (List.mem_of_mem_filter ht1)
    exact Int.sub_nonneg.mpr hsub

/-- C4 witness: the worked-example row for customer C1 has frequency the
count of the C1 transactions and a nonnegative recency. -/
theorem c4_create_rfm_columns_correct_witness :
    exC1row.frequency = (exTx.filter (fun t => t.cid == exC1row.cid)).length
    ∧ 0 ≤ exC1row.recency :=
  ⟨((c4_create_rfm_columns_correct exTx).2.2.1 exC1row (by decide)).1,
   ((c4_create_rfm_columns_correct exTx).2.2.1 exC1row (by decide)).2.2.2⟩

/-- C5: on every table produced by the quartile encoder, rfm_scores sets
RFM_Score to the integer sum of the parsed R, F, M labels, which always
lies between 3 and 12, and RFM_Segment to the string concatenation of the
three labels, which always has length exactly 3. -/
theorem c5_rfm_scores_score_and_segment (t t' : List DRow)
    (hok : scale_rfm_columns t = .ok t') (row : DRow) (hrow : row ∈ rfm_scores t') :
    row.rfm_score =
        some (pyInt (row.R.getD "") + pyInt (row.F.getD "") + pyInt (row.M.getD ""))
    ∧ row.rfm_segment = some ((row.R.getD "") ++ (row.F.getD "") ++ (row.M.getD ""))
    ∧ (∃ s, row.rfm_score = some s ∧ 3 ≤ s ∧ s ≤ 12)
    ∧ (∃ seg, row.rfm_segment = some seg ∧ seg.length = 3) := by
  have hrw : rfm_scores t' = List.insertionSort segDesc (t'.map withScores) := rfl
  rw [hrw] at hrow
  have hrow2 : row ∈ t'.map withScores := (List.mem_insertionSort segDesc).mp hrow
  obtain ⟨r0, hr0, rfl⟩ := List.mem_map.mp hrow2
  obtain ⟨⟨rl, hrl, hrlm⟩, ⟨fl, hfl, hflm⟩, ⟨ml, hml, hmlm⟩⟩ :=
    scale_ok_row_labels t t' hok r0 hr0
  obtain ⟨ha1, ha2, ha3⟩ := r_label_facts rl hrlm
  obtain ⟨hb1, hb2, hb3⟩ := fm_label_facts fl hflm
  obtain ⟨hd1, hd2, hd3⟩ := fm_label_facts ml hmlm
  refine ⟨rfl, rfl, ⟨_, rfl, ?_, ?_⟩, ⟨_, rfl, ?_⟩⟩
  · show 3 ≤ pyInt (r0.R.getD "") + pyInt (r0.F.getD "") + pyInt (r0.M.getD "")
    rw [hrl, hfl, hml]
    simp only [Option.getD_some]
    omega
  · show pyInt (r0.R.getD "") + pyInt (r0.F.getD "") + pyInt (r0.M.getD "") ≤ 12
    rw [hrl, hfl, hml]
    simp only [Option.getD_some]
    omega
  · show ((r0.R.getD "") ++ (r0.F.getD "") ++ (r0.M.getD "")).length = 3
    rw [hrl, hfl, hml]
    simp only [Option.getD_some]
    rw [String.length_append, String.length_append, ha3, hb3, hd3]

/-- C5 witness: the front row of the scored example table carries a score
between 3 and 12. -/
theorem c5_rfm_scores_score_and_segment_witness :
    ∃ s, exTopScored.rfm_score = some s ∧ 3 ≤ s ∧ s ≤ 12 :=
  (c5_rfm_scores_score_and_segment exMetric exScaled
      (by decide) exTopScored (by decide)).2.2.1

/-- C6: the table rfm_scores returns is sorted by the RFM_Segment column
in descending lexicographic String order: pairwise along the table, every
later row's segment string is at most the earlier row's in the String
order. -/
theorem c6_rfm_scores_sorted_desc (t : List DRow) :
    (rfm_scores t).Pairwise (fun a b => segKey b ≤ segKey a) := by
  have h : List.Sorted segDesc (List.insertionSort segDesc (t.map withScores)) :=
    List.sorted_insertionSort segDesc (t.map withScores)
  exact List.Pairwise.imp (fun hab => (strLtB_false_iff_le _ _).mp hab) h

/-- C7 counterexample: with the date column missing, create_rfm_columns
fails with the pandas KeyError naming that column, which is not the
InvalidInputError the claim requires. -/
theorem c7_counterexample_keyerror :
    create_rfm_columns_checked exRaw "id" "date" "revenue" = .error (.keyError "date")
    ∧ PdError.keyError "date" ≠ .invalidInputError := by
  decide

/-- C7 amended: create_rfm_columns never raises InvalidInputError (no such
error exists in the code); any failure is a pandas KeyError for a missing
required column, a TypeError, or an AttributeError.  In particular a
missing date column yields KeyError on that column name; a date column of
integer values fails with AttributeError (the int64 difference has no
`.days`); a date column of string values fails with TypeError from the
unsupported subtraction. -/
theorem c7_amended_dynamic_errors (df : RawFrame) (id dates revenue : String) :
    (∀ e, create_rfm_columns_checked df id dates revenue = .error e →
        e ≠ .invalidInputError ∧
        ((∃ c, e = .keyError c) ∨ e = .typeError ∨ e = .attributeError))
    ∧ (df.columns.lookup dates = none →
        create_rfm_columns_checked df id dates revenue = .error (.keyError dates))
    ∧ (∀ dcol icol rcol, df.columns.lookup dates = some dcol →
        df.columns.lookup id = some icol →
        df.columns.lookup revenue = some rcol →
        dcol ≠ [] → (∀ c ∈ dcol, ∃ n, c = .int n) →
        create_rfm_columns_checked df id dates revenue = .error .attributeError)
    ∧ (∀ dcol icol rcol, df.columns.lookup dates = some dcol →
        df.columns.lookup id = some icol →
        df.columns.lookup revenue = some rcol →
        dcol ≠ [] → (∀ c ∈ dcol, ∃ x, c = .str x) →
        create_rfm_columns_checked df id dates revenue = .error .typeError) := by
  refine ⟨?_, ?_, ?_, ?_⟩
  · intro e he
    unfold create_rfm_columns_checked at he
    split at he
    · cases he
      exact ⟨(by intro hcon; cases hcon), Or.inl ⟨dates, rfl⟩⟩
    split at he
    · rename_i e2 heq
      injection he with h12
      subst h12
      have hte := seriesMaxError_some _ _ heq
      subst hte
      exact ⟨(by intro hcon; cases hcon), Or.inr (Or.inl rfl)⟩
    split at he
    · cases he
      exact ⟨(by intro hcon; cases hcon), Or.inl ⟨id, rfl⟩⟩
    split at he
    · cases he
      exact ⟨(by intro hcon; cases hcon), Or.inl ⟨revenue, rfl⟩⟩
    split at he
    · cases he
      rename_i dcol heqmax hicol hrcol heqmap
      unfold dateArithError
      split_ifs
      · exact ⟨(by intro hcon; cases hcon), Or.inr (Or.inr rfl)⟩
      · exact ⟨(by intro hcon; cases hcon), Or.inr (Or.inl rfl)⟩
    cases he
  · intro h
    unfold create_rfm_columns_checked
    rw [h]
  · intro dcol icol rcol h1 h2 h3 hne hint
    have hmax : seriesMaxError dcol = none := by
      apply seriesMaxError_none_of_const _ 0
      intro c hc
      obtain ⟨n, rfl⟩ := hint c hc
      rfl
    have hmapm : dcol.mapM asDate = none := by
      cases dcol with
      | nil => exact absurd rfl hne
      | cons c cs =>
        obtain ⟨n, rfl⟩ := hint c (List.mem_cons_self _ _)
        exact mapM_asDate_none _ _ (List.mem_cons_self _ _) rfl
    have harith : dateArithError dcol = .attributeError := by
      unfold dateArithError
      rw [if_pos]
      rw [List.all_eq_true]
      intro c hc
      obtain ⟨n, rfl⟩ := hint c hc
      rfl
    simp only [create_rfm_columns_checked, h1, hmax, h2, h3, hmapm, harith]
  · intro dcol icol rcol h1 h2 h3 hne hstr
    have hmax : seriesMaxError dcol = none := by
      apply seriesMaxError_none_of_const _ 1
      intro c hc
      obtain ⟨x, rfl⟩ := hstr c hc
      rfl
    have hmapm : dcol.mapM asDate = none := by
      cases dcol with
      | nil => exact absurd rfl hne
      | cons c cs =>
        obtain ⟨x, rfl⟩ := hstr c (List.mem_cons_self _ _)
        exact mapM_asDate_none _ _ (List.mem_cons_self _ _) rfl
    have harith : dateArithError dcol = .typeError := by
      cases dcol with
      | nil => exact absurd rfl hne
      | cons c cs =>
        obtain ⟨x, rfl⟩ := hstr c (List.mem_cons_self _ _)
        unfold dateArithError
        split_ifs with hall
        · rw [List.all_eq_true] at hall
          have hbad := hall _ (List.mem_cons_self _ _)
          simp [Cell.isInt] at hbad
        · rfl
    simp only [create_rfm_columns_checked, h1, hmax, h2, h3, hmapm, harith]

/-- C7 witness: the failure on the frame without a date column is a
KeyError, not an InvalidInputError. -/
theorem c7_amended_dynamic_errors_witness :
    PdError.keyError "date" ≠ .invalidInputError
    ∧ ((∃ c, PdError.keyError "date" = .keyError c)
        ∨ PdError.keyError "date" = .typeError
        ∨ PdError.keyError "date" = .attributeError) :=
  (c7_amended_dynamic_errors exRaw "id" "date" "revenue").1 _ (by decide)

/-- C8 counterexample: a Recency column with only three distinct values
(0, 0, 1, 1, 2, 2) does not make the quartile encoder fail at all, so the
claim that fewer than four distinct values always raises
InsufficientDataError is false. -/
theorem c8_counterexample_three_distinct_ok :
    ((exFewDistinct.map (fun r => r.recency)).dedup.length = 3)
    ∧ (scale_rfm_columns exFewDistinct).map (fun _ => ()) = .ok () := by
  decide

/-- C8 amended: scale_rfm_columns never raises InsufficientDataError (no
such error exists in the code): its only failure kind is the pandas
ValueError raised by qcut when a column's quartile edges are not pairwise
distinct.  A nonempty table with a constant Recency column always fails
that way, while a column with fewer than four distinct values need not
fail (see the counterexample). -/
theorem c8_amended_valueerror_only (t : List DRow) :
    (∀ e, scale_rfm_columns t = .error e →
        e = .valueError ∧ e ≠ .insufficientDataError)
    ∧ (∀ c : Int, t ≠ [] → (∀ r ∈ t, r.recency = c) →
        scale_rfm_columns t = .error .valueError) := by
  refine ⟨fun e he => ?_, fun c h1 h2 => scale_const_recency_error t c h1 h2⟩
  have hv := scale_error_value t e he
  subst hv
  exact ⟨rfl, by intro hcon; cases hcon⟩

/-- C8 witness: the one-row table fails with ValueError. -/
theorem c8_amended_valueerror_only_witness :
    scale_rfm_columns exSingle = .error .valueError :=
  (c8_amended_valueerror_only exSingle).2 5 (by decide) (by decide)

/-- C9 counterexample: scale_rfm_columns mutates the table object passed
in: after the call on the concrete metric table, the caller's object is no
longer the table that went in (it gained the R, F, M columns). -/
theorem c9_counterexample_mutation :
    (scale_rfm_columns_state exMetric).map (fun p => p.1) ≠ .ok exMetric := by
  decide

/-- C9 amended: the stages mutate the table they are given by assigning
new columns in place: after a successful scale_rfm_columns the caller's
object is the very table returned; rfm_scores leaves the caller's object
extended by the two score columns while returning a sorted copy;
give_names_to_segments returns the caller's extended object; but no stage
ever changes the id or metric values of any row. -/
theorem c9_amended_mutation_shape (t : List DRow) :
    (∀ p, scale_rfm_columns_state t = .ok p →
        p.1 = p.2 ∧ p.1.map metricPart = t.map metricPart)
    ∧ (rfm_scores_state t).1.map metricPart = t.map metricPart
    ∧ (give_names_to_segments_state t).1 = give_names_to_segments t
    ∧ (give_names_to_segments t).map metricPart = t.map metricPart := by
  refine ⟨?_, map_withScores_metricPart t, rfl, map_names_metricPart t⟩
  intro p hp
  obtain ⟨h12, rs, fs, ms, hr, hf, hm, hp2⟩ := scale_state_ok t p hp
  refine ⟨h12, ?_⟩
  rw [h12, hp2]
  exact zipWith4_setRFM_metricPart t rs fs ms
    ((qcut4_ok_length _ _ _ hr).trans (List.length_map _ _))
    ((qcut4_ok_length _ _ _ hf).trans (List.length_map _ _))
    ((qcut4_ok_length _ _ _ hm).trans (List.length_map _ _))

/-- C9 witness: on the concrete metric table the caller's object after the
call is the returned encoded table, with the metric columns intact. -/
theorem c9_amended_mutation_shape_witness :
    (exScaled, exScaled).1 = (exScaled, exScaled).2
    ∧ (exScaled, exScaled).1.map metricPart = exMetric.map metricPart :=
  (c9_amended_mutation_shape exMetric).1 (exScaled, exScaled) (by decide)

